import Mathlib

/-!
Verification of the solution-region stripper (`ClearSolutions`) and of the
course-provisioning helper `createMultipleCourse` of this repository.

The stripper's implementation module is not part of the checked-out sources;
only its test suite (`src/nbgrader/tests/preprocessors/test_clearsolutions.py`)
is.  The definitions below are therefore modelled from the design
specification, with every point that the repository's tests pin down
(delimiter construction, default delimiters, placeholder texts, error cases)
taken from those tests.  `createMultipleCourse` is embedded directly from
`src/tools/createMultipleCourse.py`.
-/

set_option autoImplicit false

namespace NbGrader

/-- The kind of a notebook cell: `code`, `markdown` (explanatory text), or
any other kind.  Mirrors the `cell_type` field of a notebook cell. -/
inductive CellType where
  | code
  | markdown
  | other
deriving DecidableEq

/-- Modelled from the spec: a notebook cell, with its `cell_type`, its
`source` string and the grading metadata's `solution` flag.  The flag is
`none` when the nested grading record carries no `solution` key at all. -/
structure Cell where
  cell_type : CellType
  source : String
  solution : Option Bool
deriving DecidableEq

/-- Modelled from the spec: a notebook is an ordered sequence of cells plus a
top-level metadata mapping, here an association list of key/value pairs. -/
structure Notebook where
  metadata : List (String × String)
  cells : List Cell
deriving DecidableEq

/-- Modelled from the spec: the error raised for an unterminated or nested
solution region (`MalformedRegionError`; the tests observe it as a
`RuntimeError`).  It is fatal and never caught inside the core. -/
inductive RegionError where
  | malformed
deriving DecidableEq

/-- Modelled from the spec: the configuration of the stripper (the missing
`ClearSolutions` preprocessor class).  Defaults for the stubs are those the
tests assert; the delimiter defaults are chosen so that the derived
`begin_solution`/`end_solution` values are the `### BEGIN SOLUTION` /
`### END SOLUTION` lines that both the tests and the spec's end-to-end
example use. -/
structure ClearSolutions where
  code_stub : String := "# YOUR CODE HERE\nraise NotImplementedError()"
  text_stub : String := "YOUR ANSWER HERE"
  comment_mark : String := "#"
  begin_solution_delimeter : String := "## BEGIN SOLUTION"
  end_solution_delimeter : String := "## END SOLUTION"
deriving DecidableEq

/-- Modelled from the spec and pinned by `test_custom_solution_region`
(the test asserts `ClearSolutions(comment_mark="%",
begin_solution_delimeter="!!foo", ...).begin_solution == "%!!foo"`):
the begin delimiter is the comment mark concatenated directly with the
begin delimiter text. -/
def ClearSolutions.begin_solution (cs : ClearSolutions) : String :=
  cs.comment_mark ++ cs.begin_solution_delimeter

/-- Modelled from the spec, pinned by `test_custom_solution_region`:
the end delimiter is the comment mark concatenated directly with the end
delimiter text. -/
def ClearSolutions.end_solution (cs : ClearSolutions) : String :=
  cs.comment_mark ++ cs.end_solution_delimeter

/-- The stripper with all options left at their defaults, as built by the
test fixture `ClearSolutions()`. -/
def defaultCS : ClearSolutions := {}

/-- Python's `str.strip()`: remove leading and trailing whitespace. -/
def strip (s : String) : String :=
  ⟨((s.data.dropWhile Char.isWhitespace).reverse.dropWhile Char.isWhitespace).reverse⟩

/-- Python's `str.rstrip()`: remove trailing whitespace. -/
def rstrip (s : String) : String :=
  ⟨(s.data.reverse.dropWhile Char.isWhitespace).reverse⟩

/-- Helper for `splitLines`: accumulates the current line (reversed). -/
def splitLinesAux : List Char → List Char → List String
  | [], acc => [⟨acc.reverse⟩]
  | c :: cs, acc =>
    if c = '\n' then ⟨acc.reverse⟩ :: splitLinesAux cs []
    else splitLinesAux cs (c :: acc)

/-- Python's `str.split("\n")`: split a source string into its lines. -/
def splitLines (s : String) : List String := splitLinesAux s.data []

/-- Modelled from the spec: the placeholder appropriate to a cell kind
(code stub for code cells, text stub for explanatory text cells). -/
def stubFor (cs : ClearSolutions) (t : CellType) : String :=
  match t with
  | .code => cs.code_stub
  | _ => cs.text_stub

/-- The placeholder for a cell kind, split into lines as the replacement
inserts it. -/
def stubLinesFor (cs : ClearSolutions) (t : CellType) : List String :=
  splitLines (stubFor cs t)

/-- Modelled from the spec: the line scan of `_replace_solution_region`.
In state `inSol = false` a line whose stripped text equals the begin
delimiter opens a region and is replaced by the stub lines; any other line
is preserved (trimmed of trailing whitespace).  In state `inSol = true`
(inside a region) a second begin delimiter is a malformed (nested) region,
the end delimiter closes the region, and every other line is discarded.
Reaching the end of the cell inside a region is a malformed (unterminated)
region.  Returns whether a region was replaced, and the resulting lines. -/
def scan (bs es : String) (stub : List String) :
    List String → Bool → Except RegionError (Bool × List String)
  | [], inSol => if inSol then .error .malformed else .ok (false, [])
  | l :: ls, inSol =>
    if strip l = bs then
      if inSol then .error .malformed
      else
        match scan bs es stub ls true with
        | .error e => .error e
        | .ok (_, rest) => .ok (true, stub ++ rest)
    else if inSol then
      if strip l = es then scan bs es stub ls false
      else scan bs es stub ls true
    else
      match scan bs es stub ls false with
      | .error e => .error e
      | .ok (r, rest) => .ok (r, rstrip l :: rest)

/-- Is a line blank (empty or whitespace only)? -/
def isBlank (l : String) : Bool := strip l = ""

/-- Modelled from the spec: remove the leading and trailing blank lines of
the overall replacement result. -/
def stripBlankEnds (ls : List String) : List String :=
  ((ls.dropWhile isBlank).reverse.dropWhile isBlank).reverse

/-- Join lines with single newlines, as Python's `"\n".join`. -/
def joinLines : List String → String
  | [] => ""
  | [l] => l
  | l :: ls => l ++ "\n" ++ joinLines ls

/-- Modelled from the spec: `_replace_solution_region` of the missing
`ClearSolutions` class.  Splits the cell source into lines, scans for a
delimited solution region and replaces it by the kind-appropriate stub.
When a region was replaced, surrounding lines are trimmed of trailing
whitespace and leading/trailing blank lines of the result are removed;
when no region was found the source is returned unchanged.  Returns the
replaced-flag together with the (functionally) mutated cell. -/
def replaceSolutionRegion (cs : ClearSolutions) (cell : Cell) :
    Except RegionError (Bool × Cell) :=
  match scan cs.begin_solution cs.end_solution (stubLinesFor cs cell.cell_type)
      (splitLines cell.source) false with
  | .error e => .error e
  | .ok (true, out) =>
      .ok (true, { cell with source := joinLines (stripBlankEnds out) })
  | .ok (false, _) => .ok (false, cell)

/-- Modelled from the spec: `preprocess_cell`.  For code and text cells:
attempt detect-and-replace; if a region was replaced, ensure the grading
metadata's `solution` flag is `true`; if no region was found and the flag is
`true`, force-replace the whole source with the kind-appropriate stub and
keep the flag `true`.  Other cell kinds are returned unmodified.  The
`resources` bag is an opaque pass-through and is omitted. -/
def preprocess_cell (cs : ClearSolutions) (cell : Cell) : Except RegionError Cell :=
  match cell.cell_type with
  | .other => .ok cell
  | _ =>
    match replaceSolutionRegion cs cell with
    | .error e => .error e
    | .ok (true, cell') => .ok { cell' with solution := some true }
    | .ok (false, cell') =>
      if cell'.solution = some true then
        .ok { cell' with source := stubFor cs cell'.cell_type, solution := some true }
      else
        .ok cell'

/-- Modelled from the spec: `preprocess`.  Removes the `celltoolbar` key
from the notebook's top-level metadata if present, and applies
`preprocess_cell` to every cell in document order. -/
def preprocess (cs : ClearSolutions) (nb : Notebook) : Except RegionError Notebook :=
  match nb.cells.mapM (preprocess_cell cs) with
  | .error e => .error e
  | .ok cells' =>
      .ok { metadata := nb.metadata.filter (fun kv => kv.fst != "celltoolbar"),
            cells := cells' }

/-- Some begin-delimiter line has no end-delimiter line anywhere after it:
an unterminated region. -/
def Unclosed (bs es : String) (ls : List String) : Prop :=
  ∃ p b q, ls = p ++ b :: q ∧ strip b = bs ∧ ∀ l ∈ q, strip l ≠ es

/-- Two begin-delimiter lines with no end-delimiter line between them: a
second begin delimiter before the first region closes. -/
def DoubleBegin (bs es : String) (ls : List String) : Prop :=
  ∃ p b q b2 r, ls = p ++ b :: (q ++ b2 :: r) ∧ strip b = bs ∧ strip b2 = bs ∧
    ∀ l ∈ q, strip l ≠ es

/-- The malformed-source condition: an unterminated region or a nested
begin delimiter. -/
def Bad (bs es : String) (ls : List String) : Prop :=
  Unclosed bs es ls ∨ DoubleBegin bs es ls

/-- No end-delimiter line at all. -/
def NoEnd (es : String) (ls : List String) : Prop := ∀ l ∈ ls, strip l ≠ es

/-- Some begin-delimiter line occurs with no end-delimiter line before it. -/
def BeginBeforeEnd (bs es : String) (ls : List String) : Prop :=
  ∃ p b q, ls = p ++ b :: q ∧ strip b = bs ∧ ∀ l ∈ p, strip l ≠ es

/-- The condition under which the scan fails when it is already inside a
region: no closing delimiter at all, or a begin delimiter before the close,
or the remainder after the close is itself malformed. -/
def OpenBad (bs es : String) (ls : List String) : Prop :=
  NoEnd es ls ∨ BeginBeforeEnd bs es ls ∨
    ∃ p e q, ls = p ++ e :: q ∧ strip e = es ∧
      (∀ l ∈ p, strip l ≠ es ∧ strip l ≠ bs) ∧ Bad bs es q

end NbGrader

namespace CreateCourse

/-- The state of a `createMultipleCourse` instance that is relevant to the
configuration template: the `nbgrader_config_template` attribute set in
`__init__` (src/tools/createMultipleCourse.py lines 114-119). -/
structure CourseState where
  nbgrader_config_template : String
deriving DecidableEq

/-- The `nbgrader_config_template` f-string built in `__init__`
(src/tools/createMultipleCourse.py lines 114-119), with the course
directory and course id interpolated. -/
def initTemplate (dir course : String) : String :=
  "c = get_config()\n\nc.CourseDirectory.root = '" ++ dir ++
    "'\nc.CourseDirectory.course_id = '" ++ course ++
    "'\n#c.IncludeHeaderFooter.header = 'source/header.ipynb'\n"

/-- A fresh `createMultipleCourse` instance, restricted to the template. -/
def initCourseState (dir course : String) : CourseState :=
  { nbgrader_config_template := initTemplate dir course }

/-- `includeHeader` (src/tools/createMultipleCourse.py lines 157-165).  The
`makedirs` and `nbformat.write` calls are file-system effects outside this
model.  Line 163 calls `str.replace` on the template; the returned string is
never assigned, so the attribute is left unchanged. -/
def includeHeader (st : CourseState) : CourseState :=
  let _uncommented := st.nbgrader_config_template.replace
    "#c.IncludeHeaderFooter.header = 'source/header.ipynb'"
    "c.IncludeHeaderFooter.header = 'source/header.ipynb'"
  st

/-- `createNBconfig` (src/tools/createMultipleCourse.py lines 167-173):
writes the template to `nbgrader_config.py`; the model returns the written
file content. -/
def createNBconfig (st : CourseState) : String :=
  st.nbgrader_config_template

end CreateCourse

namespace NbGrader

theorem scan_nil_false (bs es : String) (stub : List String) :
    scan bs es stub [] false = .ok (false, []) := rfl

theorem scan_nil_true (bs es : String) (stub : List String) :
    scan bs es stub [] true = .error .malformed := rfl

theorem scan_cons_begin (bs es : String) (stub : List String) (l : String)
    (ls : List String) (h : strip l = bs) :
    scan bs es stub (l :: ls) false =
      match scan bs es stub ls true with
      | .error e => .error e
      | .ok (_, rest) => .ok (true, stub ++ rest) := by
  simp [scan, h]

theorem scan_cons_begin_nested (bs es : String) (stub : List String) (l : String)
    (ls : List String) (h : strip l = bs) :
    scan bs es stub (l :: ls) true = .error .malformed := by
  simp [scan, h]

theorem scan_cons_close (bs es : String) (stub : List String) (l : String)
    (ls : List String) (hb : strip l ≠ bs) (he : strip l = es) :
    scan bs es stub (l :: ls) true = scan bs es stub ls false := by
  simp only [scan, if_neg hb]
  rw [if_pos he]
  simp

theorem scan_cons_skip (bs es : String) (stub : List String) (l : String)
    (ls : List String) (hb : strip l ≠ bs) (he : strip l ≠ es) :
    scan bs es stub (l :: ls) true = scan bs es stub ls true := by
  simp only [scan, if_neg hb]
  rw [if_neg he]
  simp

theorem scan_cons_keep (bs es : String) (stub : List String) (l : String)
    (ls : List String) (hb : strip l ≠ bs) :
    scan bs es stub (l :: ls) false =
      match scan bs es stub ls false with
      | .error e => .error e
      | .ok (r, rest) => .ok (r, rstrip l :: rest) := by
  simp [scan, hb]

/-- Scanning outside a region over a block with no begin delimiter preserves
the block (right-trimmed) and continues with the remainder. -/
theorem scan_no_begin (bs es : String) (stub : List String) (p : List String)
    (h : ∀ l ∈ p, strip l ≠ bs) (rest : List String) :
    scan bs es stub (p ++ rest) false =
      match scan bs es stub rest false with
      | .error e => .error e
      | .ok (r, out) => .ok (r, p.map rstrip ++ out) := by
  induction p with
  | nil => cases hs : scan bs es stub rest false <;> simp [hs]
  | cons l p ih =>
      have hl : strip l ≠ bs := h l (by simp)
      have hp : ∀ x ∈ p, strip x ≠ bs := fun x hx => h x (by simp [hx])
      rw [List.cons_append, scan_cons_keep bs es stub l (p ++ rest) hl, ih hp]
      cases hs : scan bs es stub rest false <;> simp [hs]

/-- Scanning a source with no begin delimiter finds no region and fails
nothing. -/
theorem scan_no_begin_terminal (bs es : String) (stub : List String)
    (p : List String) (h : ∀ l ∈ p, strip l ≠ bs) :
    scan bs es stub p false = .ok (false, p.map rstrip) := by
  have := scan_no_begin bs es stub p h []
  simpa [scan_nil_false] using this

/-- Scanning inside a region skips lines up to the closing delimiter and
continues outside the region. -/
theorem scan_in_region (bs es : String) (stub : List String) (q : List String)
    (hq : ∀ l ∈ q, strip l ≠ bs ∧ strip l ≠ es) (e : String)
    (he : strip e = es) (hbe : strip e ≠ bs) (rest : List String) :
    scan bs es stub (q ++ e :: rest) true = scan bs es stub rest false := by
  induction q with
  | nil => rw [List.nil_append, scan_cons_close bs es stub e rest hbe he]
  | cons l q ih =>
      have hl := hq l (by simp)
      have hq' : ∀ x ∈ q, strip x ≠ bs ∧ strip x ≠ es :=
        fun x hx => hq x (by simp [hx])
      rw [List.cons_append, scan_cons_skip bs es stub l _ hl.1 hl.2, ih hq']

/-- Detect-and-replace on a source with no begin delimiter returns `false`
and leaves the cell unchanged. -/
theorem replace_no_region (cs : ClearSolutions) (cell : Cell)
    (h : ∀ l ∈ splitLines cell.source, strip l ≠ cs.begin_solution) :
    replaceSolutionRegion cs cell = .ok (false, cell) := by
  unfold replaceSolutionRegion
  rw [scan_no_begin_terminal _ _ _ _ h]

theorem preprocess_cell_other (cs : ClearSolutions) (cell : Cell)
    (h : cell.cell_type = .other) : preprocess_cell cs cell = .ok cell := by
  rcases cell with ⟨ty, src, sol⟩
  dsimp only at h
  subst h
  rfl

/-- `preprocess_cell` on a code or text cell, unfolded to the branch on the
result of detect-and-replace. -/
theorem preprocess_cell_eq (cs : ClearSolutions) (cell : Cell)
    (hty : cell.cell_type ≠ .other) :
    preprocess_cell cs cell =
      match replaceSolutionRegion cs cell with
      | .error e => .error e
      | .ok (true, cell') => .ok { cell' with solution := some true }
      | .ok (false, cell') =>
        if cell'.solution = some true then
          .ok { cell' with source := stubFor cs cell'.cell_type, solution := some true }
        else .ok cell' := by
  rcases cell with ⟨ty, src, sol⟩
  cases ty
  · rfl
  · rfl
  · exact absurd rfl hty

/-- Claim C3: a code or text cell whose grading metadata has `solution = true`
and whose source contains no solution region has its entire source replaced by
the kind-appropriate placeholder (the code stub
`# YOUR CODE HERE` / `raise NotImplementedError()` for code cells and
`YOUR ANSWER HERE` for text cells), and the solution flag remains `true`. -/
theorem preprocess_cell_force_clear (cell : Cell)
    (hty : cell.cell_type ≠ .other)
    (hsol : cell.solution = some true)
    (hnr : ∀ l ∈ splitLines cell.source, strip l ≠ defaultCS.begin_solution) :
    preprocess_cell defaultCS cell =
      .ok { cell with source := stubFor defaultCS cell.cell_type, solution := some true } ∧
      stubFor defaultCS .code = "# YOUR CODE HERE\nraise NotImplementedError()" ∧
      stubFor defaultCS .markdown = "YOUR ANSWER HERE" := by
  refine ⟨?_, rfl, rfl⟩
  rw [preprocess_cell_eq _ _ hty, replace_no_region _ _ hnr]
  simp [hsol]

/-- Witness for C3 at the concrete code solution cell of
`test_preprocess_code_solution_cell_no_region`. -/
theorem preprocess_cell_force_clear_witness :
    (Cell.mk .code "print(\"the answer!\")" (some true)).cell_type ≠ .other ∧
    (Cell.mk .code "print(\"the answer!\")" (some true)).solution = some true ∧
    (∀ l ∈ splitLines (Cell.mk .code "print(\"the answer!\")" (some true)).source,
      strip l ≠ defaultCS.begin_solution) ∧
    (preprocess_cell defaultCS (Cell.mk .code "print(\"the answer!\")" (some true)) =
      .ok { Cell.mk .code "print(\"the answer!\")" (some true) with
            source := stubFor defaultCS (Cell.mk .code "print(\"the answer!\")"
              (some true)).cell_type,
            solution := some true } ∧
      stubFor defaultCS .code = "# YOUR CODE HERE\nraise NotImplementedError()" ∧
      stubFor defaultCS .markdown = "YOUR ANSWER HERE") :=
  ⟨by decide, rfl, by decide,
    preprocess_cell_force_clear (Cell.mk .code "print(\"the answer!\")" (some true))
      (by decide) rfl (by decide)⟩

/-- Claim C4: whenever `preprocess_cell` finds and replaces a solution
region in a cell, the grading metadata's `solution` flag is `true` after the
call, regardless of its prior state. -/
theorem preprocess_cell_region_sets_flag (cell c1 : Cell)
    (hty : cell.cell_type ≠ .other)
    (hrep : replaceSolutionRegion defaultCS cell = .ok (true, c1)) :
    preprocess_cell defaultCS cell = .ok { c1 with solution := some true } := by
  rw [preprocess_cell_eq _ _ hty, hrep]

/-- Witness for C4 at the concrete code cell of
`test_preprocess_code_cell_solution_region` (prior flag absent). -/
theorem preprocess_cell_region_sets_flag_witness :
    (Cell.mk .code
        "print(\"something\")\n### BEGIN SOLUTION\nprint(\"very complex solution\")\n### END SOLUTION"
        none).cell_type ≠ .other ∧
    replaceSolutionRegion defaultCS
      (Cell.mk .code
        "print(\"something\")\n### BEGIN SOLUTION\nprint(\"very complex solution\")\n### END SOLUTION"
        none) =
      .ok (true, Cell.mk .code
        "print(\"something\")\n# YOUR CODE HERE\nraise NotImplementedError()" none) ∧
    preprocess_cell defaultCS
      (Cell.mk .code
        "print(\"something\")\n### BEGIN SOLUTION\nprint(\"very complex solution\")\n### END SOLUTION"
        none) =
      .ok { Cell.mk .code
              "print(\"something\")\n# YOUR CODE HERE\nraise NotImplementedError()" none
            with solution := some true } :=
  ⟨by decide, rfl,
    preprocess_cell_region_sets_flag _ _ (by decide) rfl⟩

/-- Claim C5: a cell with no solution region whose grading metadata does not
carry `solution = true` is returned byte-identical: detect-and-replace alone
returns `false` leaving the source unchanged, and `preprocess_cell` returns
the whole cell unchanged (flag still unset or `false`). -/
theorem no_region_no_flag_unchanged (cell : Cell)
    (hnr : ∀ l ∈ splitLines cell.source, strip l ≠ defaultCS.begin_solution)
    (hsol : cell.solution ≠ some true) :
    replaceSolutionRegion defaultCS cell = .ok (false, cell) ∧
      preprocess_cell defaultCS cell = .ok cell := by
  have h := replace_no_region defaultCS cell hnr
  refine ⟨h, ?_⟩
  by_cases hty : cell.cell_type = .other
  · exact preprocess_cell_other defaultCS cell hty
  · rw [preprocess_cell_eq _ _ hty, h]
    simp [hsol]

/-- Witness for C5 at the concrete code cell of
`test_preprocess_code_cell_no_region`. -/
theorem no_region_no_flag_unchanged_witness :
    (∀ l ∈ splitLines (Cell.mk .code "print(\"the answer!\")" none).source,
      strip l ≠ defaultCS.begin_solution) ∧
    (Cell.mk .code "print(\"the answer!\")" none).solution ≠ some true ∧
    (replaceSolutionRegion defaultCS (Cell.mk .code "print(\"the answer!\")" none) =
        .ok (false, Cell.mk .code "print(\"the answer!\")" none) ∧
      preprocess_cell defaultCS (Cell.mk .code "print(\"the answer!\")" none) =
        .ok (Cell.mk .code "print(\"the answer!\")" none)) :=
  ⟨by decide, by decide,
    no_region_no_flag_unchanged (Cell.mk .code "print(\"the answer!\")" none)
      (by decide) (by decide)⟩

theorem dropWhile_eq_self_of_all (f : String → Bool) (ls : List String)
    (h : ∀ l ∈ ls, f l = false) : ls.dropWhile f = ls := by
  cases ls with
  | nil => rfl
  | cons a l => simp [List.dropWhile_cons, h a (by simp)]

theorem stripBlankEnds_of_no_blank (ls : List String)
    (h : ∀ l ∈ ls, isBlank l = false) : stripBlankEnds ls = ls := by
  unfold stripBlankEnds
  rw [dropWhile_eq_self_of_all _ _ h]
  rw [dropWhile_eq_self_of_all _ _ (fun l hl => h l (List.mem_reverse.mp hl))]
  exact List.reverse_reverse ls

theorem map_rstrip_eq_self (ls : List String) (h : ∀ l ∈ ls, rstrip l = l) :
    ls.map rstrip = ls := by
  induction ls with
  | nil => rfl
  | cons a l ih =>
      rw [List.map_cons, h a (by simp), ih (fun x hx => h x (by simp [hx]))]

theorem joinLines_cons (a : String) (ls : List String) (h : ls ≠ []) :
    joinLines (a :: ls) = a ++ "\n" ++ joinLines ls := by
  cases ls with
  | nil => contradiction
  | cons b t => rfl

theorem joinLines_append (p rest : List String) (hp : p ≠ []) (hrest : rest ≠ []) :
    joinLines (p ++ rest) = joinLines p ++ "\n" ++ joinLines rest := by
  induction p with
  | nil => contradiction
  | cons a p ih =>
      cases p with
      | nil =>
          rw [List.singleton_append, joinLines_cons a rest hrest]
          rfl
      | cons a2 p2 =>
          rw [List.cons_append, joinLines_cons a ((a2 :: p2) ++ rest) (by simp),
            ih (by simp), joinLines_cons a (a2 :: p2) (by simp)]
          simp [String.append_assoc]

/-- The scan of a source consisting of a block with no delimiters, a begin
line, a region body with no delimiters, an end line, and a trailing block
with no begin delimiter: the region is replaced by the stub. -/
theorem scan_single_region (bs es : String) (stub : List String)
    (p q r : List String) (b e : String)
    (hb : strip b = bs) (he : strip e = es) (hbe : strip e ≠ bs)
    (hp : ∀ l ∈ p, strip l ≠ bs)
    (hq : ∀ l ∈ q, strip l ≠ bs ∧ strip l ≠ es)
    (hr : ∀ l ∈ r, strip l ≠ bs) :
    scan bs es stub (p ++ b :: (q ++ e :: r)) false =
      .ok (true, p.map rstrip ++ stub ++ r.map rstrip) := by
  rw [scan_no_begin bs es stub p hp _, scan_cons_begin bs es stub b _ hb,
    scan_in_region bs es stub q hq e he hbe r, scan_no_begin_terminal bs es stub r hr]
  simp [List.append_assoc]

/-- `replaceSolutionRegion` unfolded at a scan that replaced a region. -/
theorem replace_eq_of_scan_true (cs : ClearSolutions) (cell : Cell)
    (out : List String)
    (h : scan cs.begin_solution cs.end_solution (stubLinesFor cs cell.cell_type)
        (splitLines cell.source) false = .ok (true, out)) :
    replaceSolutionRegion cs cell =
      .ok (true, { cell with source := joinLines (stripBlankEnds out) }) := by
  unfold replaceSolutionRegion
  rw [h]

/-- Claim C1: for every code cell whose source contains a well-formed
solution region (one begin-delimiter line followed later by one end-delimiter
line, and no other delimiter lines), detect-and-replace returns `true` and
rewrites the source to: the right-trimmed lines before the begin delimiter,
then the code placeholder (the comment line `# YOUR CODE HERE` followed by
`raise NotImplementedError()`), then the right-trimmed lines after the end
delimiter, joined by single newlines with the leading and trailing blank
lines removed. -/
theorem replace_region_code (cell : Cell) (p q r : List String) (b e : String)
    (hty : cell.cell_type = .code)
    (hsplit : splitLines cell.source = p ++ b :: (q ++ e :: r))
    (hb : strip b = "### BEGIN SOLUTION")
    (he : strip e = "### END SOLUTION")
    (hnb : ∀ l ∈ p ++ q ++ r, strip l ≠ "### BEGIN SOLUTION")
    (hne : ∀ l ∈ p ++ q ++ r, strip l ≠ "### END SOLUTION") :
    replaceSolutionRegion defaultCS cell =
      .ok (true,
        { cell with source := joinLines (stripBlankEnds (p.map rstrip ++
            "# YOUR CODE HERE" :: "raise NotImplementedError()" :: r.map rstrip)) }) := by
  have dbs : defaultCS.begin_solution = "### BEGIN SOLUTION" := by decide
  have des : defaultCS.end_solution = "### END SOLUTION" := by decide
  have hscan : scan defaultCS.begin_solution defaultCS.end_solution
      (stubLinesFor defaultCS cell.cell_type) (splitLines cell.source) false =
      .ok (true, p.map rstrip ++
        "# YOUR CODE HERE" :: "raise NotImplementedError()" :: r.map rstrip) := by
    rw [hty, hsplit, dbs, des]
    rw [scan_single_region "### BEGIN SOLUTION" "### END SOLUTION" _ p q r b e hb he
      (by rw [he]; decide)
      (fun l hl => hnb l (by simp [hl]))
      (fun l hl => ⟨hnb l (by simp [hl]), hne l (by simp [hl])⟩)
      (fun l hl => hnb l (by simp [hl]))]
    rw [show stubLinesFor defaultCS CellType.code =
      ["# YOUR CODE HERE", "raise NotImplementedError()"] from by decide]
    simp [List.append_assoc]
  exact replace_eq_of_scan_true defaultCS cell _ hscan

/-- Witness for C1 at the concrete code cell of
`test_replace_solution_region_code`. -/
theorem replace_region_code_witness :
    strip "### BEGIN SOLUTION" = "### BEGIN SOLUTION" ∧
    strip "### END SOLUTION" = "### END SOLUTION" ∧
    splitLines
        "print(\"something\")\n### BEGIN SOLUTION\nprint(\"very complex solution\")\n### END SOLUTION" =
      ["print(\"something\")"] ++ "### BEGIN SOLUTION" ::
        (["print(\"very complex solution\")"] ++ "### END SOLUTION" :: []) ∧
    joinLines (stripBlankEnds (["print(\"something\")"].map rstrip ++
        "# YOUR CODE HERE" :: "raise NotImplementedError()" :: List.map rstrip [])) =
      "print(\"something\")\n# YOUR CODE HERE\nraise NotImplementedError()" ∧
    replaceSolutionRegion defaultCS
      (Cell.mk .code
        "print(\"something\")\n### BEGIN SOLUTION\nprint(\"very complex solution\")\n### END SOLUTION"
        none) =
      .ok (true,
        Cell.mk .code
          (joinLines (stripBlankEnds (["print(\"something\")"].map rstrip ++
            "# YOUR CODE HERE" :: "raise NotImplementedError()" :: List.map rstrip [])))
          none) :=
  ⟨by decide, by decide, by decide, by decide,
    replace_region_code
      (Cell.mk .code
        "print(\"something\")\n### BEGIN SOLUTION\nprint(\"very complex solution\")\n### END SOLUTION"
        none)
      ["print(\"something\")"] ["print(\"very complex solution\")"] []
      "### BEGIN SOLUTION" "### END SOLUTION"
      rfl (by decide) (by decide) (by decide) (by decide) (by decide)⟩

/-- Claim C6: for every text cell with a well-formed solution region (with
clean surrounding lines: non-blank and already right-trimmed, and at least
one line before the region), detect-and-replace returns `true` and the
resulting source is the pre-region text, a newline, and the text placeholder
`YOUR ANSWER HERE`, with the post-region text appended after a further
newline when present. -/
theorem replace_region_text (cell : Cell) (p q r : List String) (b e : String)
    (hty : cell.cell_type = .markdown)
    (hsplit : splitLines cell.source = p ++ b :: (q ++ e :: r))
    (hb : strip b = "### BEGIN SOLUTION")
    (he : strip e = "### END SOLUTION")
    (hnb : ∀ l ∈ p ++ q ++ r, strip l ≠ "### BEGIN SOLUTION")
    (hne : ∀ l ∈ p ++ q ++ r, strip l ≠ "### END SOLUTION")
    (hp : p ≠ [])
    (hclean : ∀ l ∈ p ++ r, isBlank l = false ∧ rstrip l = l) :
    replaceSolutionRegion defaultCS cell =
      .ok (true,
        { cell with source := joinLines p ++ "\n" ++ "YOUR ANSWER HERE" ++
            (if r = [] then "" else "\n" ++ joinLines r) }) := by
  have dbs : defaultCS.begin_solution = "### BEGIN SOLUTION" := by decide
  have des : defaultCS.end_solution = "### END SOLUTION" := by decide
  have hmapp : p.map rstrip = p :=
    map_rstrip_eq_self p (fun l hl => (hclean l (by simp [hl])).2)
  have hmapr : r.map rstrip = r :=
    map_rstrip_eq_self r (fun l hl => (hclean l (by simp [hl])).2)
  have hscan : scan defaultCS.begin_solution defaultCS.end_solution
      (stubLinesFor defaultCS cell.cell_type) (splitLines cell.source) false =
      .ok (true, p ++ "YOUR ANSWER HERE" :: r) := by
    rw [hty, hsplit, dbs, des]
    rw [scan_single_region "### BEGIN SOLUTION" "### END SOLUTION" _ p q r b e hb he
      (by rw [he]; decide)
      (fun l hl => hnb l (by simp [hl]))
      (fun l hl => ⟨hnb l (by simp [hl]), hne l (by simp [hl])⟩)
      (fun l hl => hnb l (by simp [hl]))]
    rw [show stubLinesFor defaultCS CellType.markdown = ["YOUR ANSWER HERE"] from by decide,
      hmapp, hmapr]
    simp [List.append_assoc]
  rw [replace_eq_of_scan_true defaultCS cell _ hscan]
  have hall : ∀ l ∈ p ++ "YOUR ANSWER HERE" :: r, isBlank l = false := by
    intro l hl
    rcases List.mem_append.mp hl with h1 | h2
    · exact (hclean l (by simp [h1])).1
    · rcases List.mem_cons.mp h2 with h3 | h4
      · rw [h3]; decide
      · exact (hclean l (by simp [h4])).1
  rw [stripBlankEnds_of_no_blank _ hall]
  rw [joinLines_append p ("YOUR ANSWER HERE" :: r) hp (by simp)]
  cases r with
  | nil => simp [joinLines]
  | cons a t =>
      rw [joinLines_cons "YOUR ANSWER HERE" (a :: t) (by simp),
        if_neg (List.cons_ne_nil a t)]
      simp only [String.append_assoc]

/-- Witness for C6 at the concrete text cell of
`test_replace_solution_region_text`. -/
theorem replace_region_text_witness :
    splitLines
        "something something\n### BEGIN SOLUTION\nthis is the answer!\n### END SOLUTION" =
      ["something something"] ++ "### BEGIN SOLUTION" ::
        (["this is the answer!"] ++ "### END SOLUTION" :: []) ∧
    joinLines ["something something"] ++ "\n" ++ "YOUR ANSWER HERE" ++
        (if ([] : List String) = [] then "" else "\n" ++ joinLines []) =
      "something something\nYOUR ANSWER HERE" ∧
    replaceSolutionRegion defaultCS
      (Cell.mk .markdown
        "something something\n### BEGIN SOLUTION\nthis is the answer!\n### END SOLUTION"
        none) =
      .ok (true,
        Cell.mk .markdown
          (joinLines ["something something"] ++ "\n" ++ "YOUR ANSWER HERE" ++
            (if ([] : List String) = [] then "" else "\n" ++ joinLines []))
          none) :=
  ⟨by decide, by decide,
    replace_region_text
      (Cell.mk .markdown
        "something something\n### BEGIN SOLUTION\nthis is the answer!\n### END SOLUTION"
        none)
      ["something something"] ["this is the answer!"] []
      "### BEGIN SOLUTION" "### END SOLUTION"
      rfl (by decide) (by decide) (by decide) (by decide) (by decide)
      (by decide) (by decide)⟩

/-- `preprocess_cell` on a code or text cell whose source has no begin
delimiter: the force-clear branch decided by the solution flag. -/
theorem preprocess_cell_no_region (cs : ClearSolutions) (cell : Cell)
    (hty : cell.cell_type ≠ .other)
    (hnr : ∀ l ∈ splitLines cell.source, strip l ≠ cs.begin_solution) :
    preprocess_cell cs cell =
      if cell.solution = some true then
        .ok { cell with source := stubFor cs cell.cell_type, solution := some true }
      else .ok cell := by
  rw [preprocess_cell_eq _ _ hty, replace_no_region _ _ hnr]

/-- Claim C8, counterexample: a cell already processed once (no region
remains in its source) is not in general left unchanged by a second pass.
For the code cell of `test_preprocess_code_cell_student`, the first pass
replaces the region and sets the solution flag; the second pass finds no
region, sees the flag, and force-clears the whole source to the bare
placeholder, losing the surrounding line. -/
theorem second_pass_not_noop :
    preprocess_cell defaultCS
        (Cell.mk .code
          "print(\"something\")\n### BEGIN SOLUTION\nprint(\"very complex solution\")\n### END SOLUTION"
          none) =
      .ok (Cell.mk .code
        "print(\"something\")\n# YOUR CODE HERE\nraise NotImplementedError()" (some true)) ∧
    (∀ l ∈ splitLines "print(\"something\")\n# YOUR CODE HERE\nraise NotImplementedError()",
      strip l ≠ defaultCS.begin_solution) ∧
    preprocess_cell defaultCS
        (Cell.mk .code
          "print(\"something\")\n# YOUR CODE HERE\nraise NotImplementedError()" (some true)) =
      .ok (Cell.mk .code "# YOUR CODE HERE\nraise NotImplementedError()" (some true)) ∧
    ("# YOUR CODE HERE\nraise NotImplementedError()" : String) ≠
      "print(\"something\")\n# YOUR CODE HERE\nraise NotImplementedError()" :=
  ⟨rfl, by decide, rfl, by decide⟩

/-- Claim C8 (amended): applying the stripper a second time to a
once-processed cell in which no solution region remains leaves the cell
unchanged, provided the cell's solution flag is not `true` after the first
pass, or its source after the first pass is exactly the kind-appropriate
placeholder (as when the whole source was force-replaced). -/
theorem second_pass_noop_amended (cell c1 : Cell)
    (h1 : preprocess_cell defaultCS cell = .ok c1)
    (hnr : ∀ l ∈ splitLines c1.source, strip l ≠ defaultCS.begin_solution)
    (hcond : c1.solution ≠ some true ∨ c1.source = stubFor defaultCS c1.cell_type) :
    preprocess_cell defaultCS c1 = .ok c1 := by
  by_cases hsol : c1.solution = some true
  · rcases hcond with hc | hc
    · exact absurd hsol hc
    · by_cases hty : c1.cell_type = .other
      · exact preprocess_cell_other defaultCS c1 hty
      · rw [preprocess_cell_no_region defaultCS c1 hty hnr, if_pos hsol]
        rcases c1 with ⟨ty, src, sol⟩
        dsimp only at hc hsol ⊢
        rw [hsol, ← hc]
  · exact (no_region_no_flag_unchanged c1 hnr hsol).2

/-- Witness for the amended C8 at the force-cleared solution cell of
`test_preprocess_code_solution_cell_no_region`: the second pass returns it
unchanged. -/
theorem second_pass_noop_amended_witness :
    preprocess_cell defaultCS (Cell.mk .code "print(\"the answer!\")" (some true)) =
      .ok (Cell.mk .code "# YOUR CODE HERE\nraise NotImplementedError()" (some true)) ∧
    (∀ l ∈ splitLines
        (Cell.mk .code "# YOUR CODE HERE\nraise NotImplementedError()" (some true)).source,
      strip l ≠ defaultCS.begin_solution) ∧
    ((Cell.mk .code "# YOUR CODE HERE\nraise NotImplementedError()"
        (some true)).solution ≠ some true ∨
      (Cell.mk .code "# YOUR CODE HERE\nraise NotImplementedError()" (some true)).source =
        stubFor defaultCS
          (Cell.mk .code "# YOUR CODE HERE\nraise NotImplementedError()"
            (some true)).cell_type) ∧
    preprocess_cell defaultCS
        (Cell.mk .code "# YOUR CODE HERE\nraise NotImplementedError()" (some true)) =
      .ok (Cell.mk .code "# YOUR CODE HERE\nraise NotImplementedError()" (some true)) :=
  ⟨rfl, by decide, Or.inr rfl,
    second_pass_noop_amended (Cell.mk .code "print(\"the answer!\")" (some true))
      (Cell.mk .code "# YOUR CODE HERE\nraise NotImplementedError()" (some true))
      rfl (by decide) (Or.inr rfl)⟩

/-- Claim C9: `preprocess` removes the `celltoolbar` key from the notebook's
top-level metadata if present, and every other top-level metadata key and
its value are preserved. -/
theorem preprocess_removes_celltoolbar (cs : ClearSolutions) (nb nb' : Notebook)
    (h : preprocess cs nb = .ok nb') :
    (∀ v, ("celltoolbar", v) ∉ nb'.metadata) ∧
      ∀ k v, k ≠ "celltoolbar" → (((k, v) ∈ nb'.metadata) ↔ (k, v) ∈ nb.metadata) := by
  have hmeta : nb'.metadata =
      nb.metadata.filter (fun kv => kv.fst != "celltoolbar") := by
    unfold preprocess at h
    cases hm : nb.cells.mapM (preprocess_cell cs) with
    | error e => rw [hm] at h; exact absurd h (by simp)
    | ok cells' =>
        rw [hm] at h
        have h2 := Except.ok.inj h
        rw [← h2]
  constructor
  · intro v hv
    rw [hmeta] at hv
    have h3 := (List.mem_filter.mp hv).2
    simp at h3
  · intro k v hk
    rw [hmeta]
    constructor
    · intro hv
      exact (List.mem_filter.mp hv).1
    · intro hv
      exact List.mem_filter.mpr ⟨hv, by simp [hk]⟩

/-- Witness for C9 at a concrete notebook carrying a `celltoolbar` key and a
`kernelspec` key (as in `test_remove_celltoolbar`). -/
theorem preprocess_removes_celltoolbar_witness :
    preprocess defaultCS
        (Notebook.mk [("celltoolbar", "Create Assignment"), ("kernelspec", "python3")] []) =
      .ok (Notebook.mk [("kernelspec", "python3")] []) ∧
    (∀ v, ("celltoolbar", v) ∉
      (Notebook.mk [("kernelspec", "python3")] ([] : List Cell)).metadata) ∧
    (("kernelspec", "python3") ∈
        (Notebook.mk [("kernelspec", "python3")] ([] : List Cell)).metadata ↔
      ("kernelspec", "python3") ∈
        (Notebook.mk [("celltoolbar", "Create Assignment"), ("kernelspec", "python3")]
          ([] : List Cell)).metadata) :=
  ⟨rfl,
    (preprocess_removes_celltoolbar defaultCS
      (Notebook.mk [("celltoolbar", "Create Assignment"), ("kernelspec", "python3")] [])
      (Notebook.mk [("kernelspec", "python3")] []) rfl).1,
    (preprocess_removes_celltoolbar defaultCS
      (Notebook.mk [("celltoolbar", "Create Assignment"), ("kernelspec", "python3")] [])
      (Notebook.mk [("kernelspec", "python3")] []) rfl).2 "kernelspec" "python3"
      (by decide)⟩

theorem first_marker_decomp (m : String) (ls : List String) :
    (∀ l ∈ ls, strip l ≠ m) ∨
      ∃ p b q, ls = p ++ b :: q ∧ strip b = m ∧ ∀ l ∈ p, strip l ≠ m := by
  induction ls with
  | nil => exact Or.inl (by simp)
  | cons a ls ih =>
      by_cases ha : strip a = m
      · exact Or.inr ⟨[], a, ls, rfl, ha, by simp⟩
      · rcases ih with h | ⟨p, b, q, hdec, hb, hp⟩
        · refine Or.inl ?_
          intro l hl
          rcases List.mem_cons.mp hl with h1 | h2
          · rw [h1]; exact ha
          · exact h l h2
        · refine Or.inr ⟨a :: p, b, q, by rw [hdec, List.cons_append], hb, ?_⟩
          intro l hl
          rcases List.mem_cons.mp hl with h1 | h2
          · rw [h1]; exact ha
          · exact hp l h2

theorem append_align (b e : String) (q qE : List String) (hne : e ≠ b) :
    ∀ pE p : List String, (∀ l ∈ pE, l ≠ b) →
      p ++ b :: q = pE ++ e :: qE → ∃ x, p = pE ++ e :: x ∧ qE = x ++ b :: q := by
  intro pE
  induction pE with
  | nil =>
      intro p hnb hdec
      cases p with
      | nil =>
          rw [List.nil_append, List.nil_append] at hdec
          exact absurd (List.cons.inj hdec).1.symm hne
      | cons a p' =>
          rw [List.cons_append, List.nil_append] at hdec
          obtain ⟨h1, h2⟩ := List.cons.inj hdec
          exact ⟨p', by rw [h1, List.nil_append], h2.symm⟩
  | cons a pE' ih =>
      intro p hnb hdec
      cases p with
      | nil =>
          rw [List.nil_append, List.cons_append] at hdec
          obtain ⟨h1, h2⟩ := List.cons.inj hdec
          exact absurd h1.symm (hnb a (by simp))
      | cons a' p' =>
          rw [List.cons_append, List.cons_append] at hdec
          obtain ⟨h1, h2⟩ := List.cons.inj hdec
          obtain ⟨x, h3, h4⟩ := ih p' (fun l hl => hnb l (by simp [hl])) h2
          exact ⟨x, by rw [h1, h3, List.cons_append], h4⟩

theorem unclosed_weaken (bs es : String) (xs ls : List String)
    (h : Unclosed bs es ls) : Unclosed bs es (xs ++ ls) := by
  obtain ⟨p, b, q, hdec, hb, hq⟩ := h
  exact ⟨xs ++ p, b, q, by rw [hdec, List.append_assoc], hb, hq⟩

theorem double_weaken (bs es : String) (xs ls : List String)
    (h : DoubleBegin bs es ls) : DoubleBegin bs es (xs ++ ls) := by
  obtain ⟨p, b, q, b2, r, hdec, hb, hb2, hq⟩ := h
  exact ⟨xs ++ p, b, q, b2, r, by rw [hdec, List.append_assoc], hb, hb2, hq⟩

theorem bad_weaken (bs es : String) (xs ls : List String)
    (h : Bad bs es ls) : Bad bs es (xs ++ ls) :=
  h.imp (unclosed_weaken bs es xs ls) (double_weaken bs es xs ls)

theorem bad_of_bad_cons (bs es l : String) (ls : List String)
    (hlb : strip l ≠ bs) (h : Bad bs es (l :: ls)) : Bad bs es ls := by
  rcases h with ⟨p, b, q, hdec, hb, hq⟩ | ⟨p, b, q, b2, r, hdec, hb, hb2, hq⟩
  · cases p with
    | nil =>
        rw [List.nil_append] at hdec
        obtain ⟨h1, h2⟩ := List.cons.inj hdec
        exact absurd (by rw [h1]; exact hb) hlb
    | cons a p' =>
        rw [List.cons_append] at hdec
        obtain ⟨h1, h2⟩ := List.cons.inj hdec
        exact Or.inl ⟨p', b, q, h2, hb, hq⟩
  · cases p with
    | nil =>
        rw [List.nil_append] at hdec
        obtain ⟨h1, h2⟩ := List.cons.inj hdec
        exact absurd (by rw [h1]; exact hb) hlb
    | cons a p' =>
        rw [List.cons_append] at hdec
        obtain ⟨h1, h2⟩ := List.cons.inj hdec
        exact Or.inr ⟨p', b, q, b2, r, h2, hb, hb2, hq⟩

/-- A malformed source still looks malformed when the scan is already inside
a region. -/
theorem bad_to_open (bs es : String) (hne : bs ≠ es) (ls : List String)
    (h : Bad bs es ls) : OpenBad bs es ls := by
  rcases first_marker_decomp es ls with hno | ⟨pE, e, qE, hdecE, he, hpE⟩
  · exact Or.inl hno
  · rcases first_marker_decomp bs pE with hnoB | ⟨x, b', y, hdecB, hb', hx⟩
    · rcases h with ⟨p, b, q, hdec, hb, hq⟩ | ⟨p, b, q, b2, r, hdec, hb, hb2, hq⟩
      · have heb : e ≠ b := fun hEq => hne (by rw [← hb, ← hEq]; exact he)
        have hnb : ∀ l ∈ pE, l ≠ b :=
          fun l hl hEq => hnoB l hl (by rw [hEq]; exact hb)
        obtain ⟨x, h1, h2⟩ :=
          append_align b e q qE heb pE p hnb (hdec.symm.trans hdecE)
        refine Or.inr (Or.inr ⟨pE, e, qE, hdecE, he, ?_,
          Or.inl ⟨x, b, q, h2, hb, hq⟩⟩)
        intro l hl
        exact ⟨hpE l hl, hnoB l hl⟩
      · have heb : e ≠ b := fun hEq => hne (by rw [← hb, ← hEq]; exact he)
        have hnb : ∀ l ∈ pE, l ≠ b :=
          fun l hl hEq => hnoB l hl (by rw [hEq]; exact hb)
        obtain ⟨x, h1, h2⟩ :=
          append_align b e (q ++ b2 :: r) qE heb pE p hnb (hdec.symm.trans hdecE)
        refine Or.inr (Or.inr ⟨pE, e, qE, hdecE, he, ?_,
          Or.inr ⟨x, b, q, b2, r, h2, hb, hb2, hq⟩⟩)
        intro l hl
        exact ⟨hpE l hl, hnoB l hl⟩
    · refine Or.inr (Or.inl ⟨x, b', y ++ e :: qE, ?_, hb', ?_⟩)
      · rw [hdecE, hdecB, List.append_assoc, List.cons_append]
      · intro l hl
        exact hpE l (by rw [hdecB]; simp [hl])

theorem open_of_bad_end (bs es l : String) (ls : List String)
    (hle : strip l = es) (h : Bad bs es ls) : OpenBad bs es (l :: ls) :=
  Or.inr (Or.inr ⟨[], l, ls, rfl, hle, by simp, h⟩)

theorem bad_of_open_end (bs es l : String) (ls : List String)
    (hlb : strip l ≠ bs) (hle : strip l = es)
    (h : OpenBad bs es (l :: ls)) : Bad bs es ls := by
  rcases h with hno | ⟨p, b, q, hdec, hb, hp⟩ | ⟨p, e, q, hdec, he, hpm, hbad⟩
  · exact absurd hle (hno l (by simp))
  · cases p with
    | nil =>
        rw [List.nil_append] at hdec
        obtain ⟨h1, h2⟩ := List.cons.inj hdec
        exact absurd (by rw [h1]; exact hb) hlb
    | cons a p' =>
        rw [List.cons_append] at hdec
        obtain ⟨h1, h2⟩ := List.cons.inj hdec
        exact absurd (by rw [← h1]; exact hle) (hp a (by simp))
  · cases p with
    | nil =>
        rw [List.nil_append] at hdec
        obtain ⟨h1, h2⟩ := List.cons.inj hdec
        rw [h2]
        exact hbad
    | cons a p' =>
        rw [List.cons_append] at hdec
        obtain ⟨h1, h2⟩ := List.cons.inj hdec
        exact absurd (by rw [← h1]; exact hle) (hpm a (by simp)).1

theorem open_cons_begin (bs es l : String) (ls : List String)
    (hlb : strip l = bs) : OpenBad bs es (l :: ls) :=
  Or.inr (Or.inl ⟨[], l, ls, rfl, hlb, by simp⟩)

theorem bad_cons_begin_of_open (bs es l : String) (ls : List String)
    (hlb : strip l = bs) (h : OpenBad bs es ls) : Bad bs es (l :: ls) := by
  rcases h with hno | ⟨p, b, q, hdec, hb, hp⟩ | ⟨p, e, q, hdec, he, hpm, hbad⟩
  · exact Or.inl ⟨[], l, ls, rfl, hlb, hno⟩
  · refine Or.inr ⟨[], l, p, b, q, ?_, hlb, hb, hp⟩
    rw [hdec, List.nil_append]
  · have hsplit2 : l :: ls = (l :: p ++ [e]) ++ q := by
      rw [hdec]
      simp
    rw [hsplit2]
    exact bad_weaken bs es (l :: p ++ [e]) q hbad

theorem open_of_bad_cons_begin (bs es : String) (hne : bs ≠ es) (l : String)
    (ls : List String) (_hlb : strip l = bs)
    (h : Bad bs es (l :: ls)) : OpenBad bs es ls := by
  rcases h with ⟨p, b, q, hdec, hb, hq⟩ | ⟨p, b, q, b2, r, hdec, hb, hb2, hq⟩
  · cases p with
    | nil =>
        rw [List.nil_append] at hdec
        obtain ⟨h1, h2⟩ := List.cons.inj hdec
        exact Or.inl (fun x hx => hq x (h2 ▸ hx))
    | cons a p' =>
        rw [List.cons_append] at hdec
        obtain ⟨h1, h2⟩ := List.cons.inj hdec
        exact bad_to_open bs es hne ls (Or.inl ⟨p', b, q, h2, hb, hq⟩)
  · cases p with
    | nil =>
        rw [List.nil_append] at hdec
        obtain ⟨h1, h2⟩ := List.cons.inj hdec
        exact Or.inr (Or.inl ⟨q, b2, r, h2, hb2, hq⟩)
    | cons a p' =>
        rw [List.cons_append] at hdec
        obtain ⟨h1, h2⟩ := List.cons.inj hdec
        exact bad_to_open bs es hne ls (Or.inr ⟨p', b, q, b2, r, h2, hb, hb2, hq⟩)

theorem open_cons_skip_iff (bs es l : String) (ls : List String)
    (hlb : strip l ≠ bs) (hle : strip l ≠ es) :
    OpenBad bs es (l :: ls) ↔ OpenBad bs es ls := by
  constructor
  · intro h
    rcases h with hno | ⟨p, b, q, hdec, hb, hp⟩ | ⟨p, e, q, hdec, he, hpm, hbad⟩
    · exact Or.inl (fun x hx => hno x (by simp [hx]))
    · cases p with
      | nil =>
          rw [List.nil_append] at hdec
          obtain ⟨h1, h2⟩ := List.cons.inj hdec
          exact absurd (by rw [h1]; exact hb) hlb
      | cons a p' =>
          rw [List.cons_append] at hdec
          obtain ⟨h1, h2⟩ := List.cons.inj hdec
          exact Or.inr (Or.inl ⟨p', b, q, h2, hb,
            fun x hx => hp x (by simp [hx])⟩)
    · cases p with
      | nil =>
          rw [List.nil_append] at hdec
          obtain ⟨h1, h2⟩ := List.cons.inj hdec
          exact absurd (by rw [h1]; exact he) hle
      | cons a p' =>
          rw [List.cons_append] at hdec
          obtain ⟨h1, h2⟩ := List.cons.inj hdec
          exact Or.inr (Or.inr ⟨p', e, q, h2, he,
            fun x hx => hpm x (by simp [hx]), hbad⟩)
  · intro h
    rcases h with hno | ⟨p, b, q, hdec, hb, hp⟩ | ⟨p, e, q, hdec, he, hpm, hbad⟩
    · refine Or.inl ?_
      intro x hx
      rcases List.mem_cons.mp hx with h1 | h2
      · rw [h1]; exact hle
      · exact hno x h2
    · refine Or.inr (Or.inl ⟨l :: p, b, q, by rw [hdec, List.cons_append], hb, ?_⟩)
      intro x hx
      rcases List.mem_cons.mp hx with h1 | h2
      · rw [h1]; exact hle
      · exact hp x h2
    · refine Or.inr (Or.inr ⟨l :: p, e, q, by rw [hdec, List.cons_append], he, ?_, hbad⟩)
      intro x hx
      rcases List.mem_cons.mp hx with h1 | h2
      · rw [h1]; exact ⟨hle, hlb⟩
      · exact hpm x h2

theorem scan_cons_begin_error (bs es : String) (stub : List String)
    (l : String) (ls : List String) (hlb : strip l = bs) :
    (scan bs es stub (l :: ls) false = .error .malformed ↔
      scan bs es stub ls true = .error .malformed) := by
  rw [scan_cons_begin bs es stub l ls hlb]
  cases hs : scan bs es stub ls true with
  | error e => cases e; simp
  | ok x => obtain ⟨r, rest⟩ := x; simp

theorem scan_cons_keep_error (bs es : String) (stub : List String)
    (l : String) (ls : List String) (hlb : strip l ≠ bs) :
    (scan bs es stub (l :: ls) false = .error .malformed ↔
      scan bs es stub ls false = .error .malformed) := by
  rw [scan_cons_keep bs es stub l ls hlb]
  cases hs : scan bs es stub ls false with
  | error e => cases e; simp
  | ok x => obtain ⟨r, rest⟩ := x; simp

/-- The line scan fails exactly on malformed sources: in the outside-region
state iff the lines are `Bad`, in the inside-region state iff they are
`OpenBad`. -/
theorem scan_error_iff (bs es : String) (stub : List String) (hne : bs ≠ es) :
    ∀ ls : List String,
      (scan bs es stub ls false = .error .malformed ↔ Bad bs es ls) ∧
      (scan bs es stub ls true = .error .malformed ↔ OpenBad bs es ls) := by
  intro ls
  induction ls with
  | nil =>
      constructor
      · rw [scan_nil_false]
        constructor
        · intro h; exact absurd h (by simp)
        · rintro (⟨p, b, q, hdec, _, _⟩ | ⟨p, b, q, b2, r, hdec, _, _, _⟩)
          · exact absurd hdec (by simp)
          · exact absurd hdec (by simp)
      · rw [scan_nil_true]
        constructor
        · intro _
          exact Or.inl (fun x hx => absurd hx (List.not_mem_nil x))
        · intro _
          rfl
  | cons l ls ih =>
      by_cases hlb : strip l = bs
      · constructor
        · rw [scan_cons_begin_error bs es stub l ls hlb, ih.2]
          exact ⟨bad_cons_begin_of_open bs es l ls hlb,
            open_of_bad_cons_begin bs es hne l ls hlb⟩
        · rw [scan_cons_begin_nested bs es stub l ls hlb]
          constructor
          · intro _
            exact open_cons_begin bs es l ls hlb
          · intro _
            rfl
      · by_cases hle : strip l = es
        · constructor
          · rw [scan_cons_keep_error bs es stub l ls hlb, ih.1]
            exact ⟨bad_weaken bs es [l] ls, bad_of_bad_cons bs es l ls hlb⟩
          · rw [scan_cons_close bs es stub l ls hlb hle, ih.1]
            exact ⟨open_of_bad_end bs es l ls hle,
              bad_of_open_end bs es l ls hlb hle⟩
        · constructor
          · rw [scan_cons_keep_error bs es stub l ls hlb, ih.1]
            exact ⟨bad_weaken bs es [l] ls, bad_of_bad_cons bs es l ls hlb⟩
          · rw [scan_cons_skip bs es stub l ls hlb hle, ih.2]
            exact (open_cons_skip_iff bs es l ls hlb hle).symm

/-- `replaceSolutionRegion` fails exactly when the scan fails. -/
theorem replace_error_iff (cs : ClearSolutions) (cell : Cell) :
    (replaceSolutionRegion cs cell = .error .malformed ↔
      scan cs.begin_solution cs.end_solution (stubLinesFor cs cell.cell_type)
        (splitLines cell.source) false = .error .malformed) := by
  unfold replaceSolutionRegion
  cases hs : scan cs.begin_solution cs.end_solution (stubLinesFor cs cell.cell_type)
      (splitLines cell.source) false with
  | error e => cases e; simp
  | ok x => obtain ⟨r, rest⟩ := x; cases r <;> simp

/-- Claim C2: detect-and-replace fails with `MalformedRegionError` if and
only if the cell's source contains a begin-delimiter line with no
end-delimiter line after it before the end of the cell (unterminated
region), or two begin-delimiter lines with no end-delimiter line between
them (a second begin before the first region is closed); and the error
propagates uncaught through `preprocess_cell`, with no recovery or
substitution. -/
theorem malformed_iff (cell : Cell) :
    (replaceSolutionRegion defaultCS cell = .error .malformed ↔
      Unclosed defaultCS.begin_solution defaultCS.end_solution
          (splitLines cell.source) ∨
        DoubleBegin defaultCS.begin_solution defaultCS.end_solution
          (splitLines cell.source)) ∧
    (cell.cell_type ≠ .other →
      replaceSolutionRegion defaultCS cell = .error .malformed →
        preprocess_cell defaultCS cell = .error .malformed) := by
  constructor
  · rw [replace_error_iff defaultCS cell]
    exact (scan_error_iff defaultCS.begin_solution defaultCS.end_solution
      (stubLinesFor defaultCS cell.cell_type) (by decide) (splitLines cell.source)).1
  · intro hty herr
    rw [preprocess_cell_eq defaultCS cell hty, herr]

/-- Witness for C2 at the unclosed-region text cell of
`test_replace_solution_region_no_end`: the error is raised, the source
satisfies the malformedness condition, and `preprocess_cell` propagates the
error. -/
theorem malformed_iff_witness :
    replaceSolutionRegion defaultCS
        (Cell.mk .markdown
          "something something\n### BEGIN SOLUTION\nthis is the answer!" none) =
      .error .malformed ∧
    (Unclosed defaultCS.begin_solution defaultCS.end_solution
        (splitLines "something something\n### BEGIN SOLUTION\nthis is the answer!") ∨
      DoubleBegin defaultCS.begin_solution defaultCS.end_solution
        (splitLines "something something\n### BEGIN SOLUTION\nthis is the answer!")) ∧
    preprocess_cell defaultCS
        (Cell.mk .markdown
          "something something\n### BEGIN SOLUTION\nthis is the answer!" none) =
      .error .malformed :=
  ⟨rfl,
    (malformed_iff (Cell.mk .markdown
      "something something\n### BEGIN SOLUTION\nthis is the answer!" none)).1.mp rfl,
    (malformed_iff (Cell.mk .markdown
      "something something\n### BEGIN SOLUTION\nthis is the answer!" none)).2
      (by decide) rfl⟩

/-- Claim C7, counterexample: constructing the stripper with comment mark
`%` and begin delimiter text `!!foo` yields `begin_solution = "%!!foo"`,
not `"% !!foo"` as the claim's `comment_prefix + " " + marker` formula
would give (pinned by `test_custom_solution_region`). -/
theorem begin_solution_space_counterexample :
    ClearSolutions.begin_solution
        { comment_mark := "%", begin_solution_delimeter := "!!foo",
          end_solution_delimeter := "@@bar" } = "%!!foo" ∧
      ("%!!foo" : String) ≠ "% !!foo" := by
  exact ⟨rfl, by decide⟩

/-- Claim C7 (amended): for every configuration of the stripper, the derived
begin delimiter equals the comment mark concatenated directly (no space)
with the begin delimiter text, and likewise the end delimiter; the same
derived pair is used for code and text cells alike. -/
theorem begin_end_solution_concat (cstub tstub cm bsd esd : String) :
    ClearSolutions.begin_solution
        { code_stub := cstub, text_stub := tstub, comment_mark := cm,
          begin_solution_delimeter := bsd, end_solution_delimeter := esd } =
        cm ++ bsd ∧
      ClearSolutions.end_solution
        { code_stub := cstub, text_stub := tstub, comment_mark := cm,
          begin_solution_delimeter := bsd, end_solution_delimeter := esd } =
        cm ++ esd :=
  ⟨rfl, rfl⟩

end NbGrader

namespace CreateCourse

/-- Claim C10: `includeHeader` leaves the `nbgrader_config_template`
attribute unchanged (the `str.replace` result on line 163 is discarded), so
`createNBconfig` writes a `nbgrader_config.py` that still contains the
commented-out line `#c.IncludeHeaderFooter.header = 'source/header.ipynb'`
even when the header notebook has been created. -/
theorem includeHeader_keeps_commented_header (dir course : String) :
    includeHeader (initCourseState dir course) = initCourseState dir course ∧
      ∃ p, createNBconfig (includeHeader (initCourseState dir course)) =
        p ++ "#c.IncludeHeaderFooter.header = 'source/header.ipynb'\n" := by
  refine ⟨rfl, ⟨"c = get_config()\n\nc.CourseDirectory.root = '" ++ dir ++
    "'\nc.CourseDirectory.course_id = '" ++ course ++ "'\n", ?_⟩⟩
  show initTemplate dir course = _
  unfold initTemplate
  have h : ("'\n#c.IncludeHeaderFooter.header = 'source/header.ipynb'\n" : String) =
      "'\n" ++ "#c.IncludeHeaderFooter.header = 'source/header.ipynb'\n" := by decide
  rw [h]
  simp only [String.append_assoc]

end CreateCourse
